import Mathlib

/-!
# EtherealEngine asset manager

A shallow embedding of `engine/runtime/assets/asset_manager.h`: the per-type
`asset_storage`, the `asset_manager` registry and its typed operations
(`load`, `find_asset_entry`, `load_asset_from_instance`, `rename_asset`,
`clear_asset`, `delete_asset`, `clear`), followed by the theorems that settle
the specification's statements about them.

Shared mutable C++ state is made explicit:

* links (`asset_link<T>`, shared by every handle that aliases them) and the
  shared states of futures live in a `Heap`, addressed by natural numbers;
* the `unordered_map` containers are association lists read by first match;
* every invocation of a storage delegate is appended to a log of `event`s.
-/

namespace runtime

/-! ## Types declared outside the translated header -/

/-- Modelled from the spec: `load_mode` is declared in `asset_flags.h`, which is not
among the sources; the header uses `load_mode::sync`, the spec names a blocking and a
non-blocking mode. -/
inductive load_mode where
  | sync
  | async
  deriving DecidableEq, Repr

/-- Modelled from the spec: `load_flags` is declared in `asset_flags.h`; the header uses
`load_flags::standard` and `load_flags::reload`. -/
inductive load_flags where
  | standard
  | reload
  deriving DecidableEq, Repr

/-- Modelled from the spec: the Resource Link of section 3 (`asset_link<T>`, declared outside
the sources): the current key `id` and the owned resource `asset`, a `shared_ptr<T>` that is
`none` when null and `some p` when it owns object `p`. -/
structure asset_link where
  id : String
  asset : Option Nat
  deriving DecidableEq, Repr

/-- Modelled from the spec: the Resource Handle of section 3 (`asset_handle<T>`, declared
outside the sources): a shared reference to a Link. The header dereferences `asset.link`
without a null check, so the reference always designates a link of the heap. -/
structure asset_handle where
  link : Nat
  deriving DecidableEq, Repr

/-- Modelled from the spec: the shared state behind a `core::task_future` (section 4.1): whether
the work has completed, and the handle the work produces. -/
structure future_state where
  ready : Bool
  result : asset_handle
  deriving DecidableEq, Repr

/-- Modelled from the spec: `core::task_future<asset_handle<T>>` (declared in `tasks.hpp`,
outside the sources). A default-constructed future is `empty`; any other future refers to a
shared state, and two futures are the same future exactly when they refer to the same state. -/
inductive task_future where
  | empty
  | shared (state : Nat)
  deriving DecidableEq, Repr

/-- The memory shared between the manager, the delegates and the callers: links and future
states by address, with the next free address of each kind. -/
structure Heap where
  links : Nat → asset_link
  next_link : Nat
  futures : Nat → future_state
  next_future : Nat

/-- Writes one link of the heap. -/
def Heap.set_link (h : Heap) (l : Nat) (v : asset_link) : Heap :=
  { h with links := fun i => if i = l then v else h.links i }

/-- Writes one future state of the heap. -/
def Heap.set_future (h : Heap) (s : Nat) (v : future_state) : Heap :=
  { h with futures := fun i => if i = s then v else h.futures i }

/-- Modelled from the spec: default construction `asset_handle<T> original;` (the empty handle of
section 4.2): the handle refers to a link of its own with an empty id and no asset, the state in
which `clear_asset` leaves an invalidated link. -/
def asset_handle.make (h : Heap) : asset_handle × Heap :=
  (⟨h.next_link⟩,
    { (h.set_link h.next_link ⟨"", none⟩) with next_link := h.next_link + 1 })

/-- Modelled from the spec: `future.is_ready()`, the non-blocking readiness check; an empty
future is never ready. -/
def task_future.is_ready (f : task_future) (h : Heap) : Bool :=
  match f with
  | task_future.empty => false
  | task_future.shared s => (h.futures s).ready

/-- Modelled from the spec: `future.wait()` blocks until the work has completed: on return
the shared state is ready. A future that is already ready, and an empty future (which has no
work), leave the heap as it is. -/
def task_future.wait (f : task_future) (h : Heap) : Heap :=
  match f with
  | task_future.empty => h
  | task_future.shared s =>
    if (h.futures s).ready then h else h.set_future s ⟨true, (h.futures s).result⟩

/-- Modelled from the spec: `future.get()` waits and returns the result handle, which shares
the Link of every other handle got from this future. An empty future has no result. -/
def task_future.get (f : task_future) (h : Heap) : Option (asset_handle × Heap) :=
  match f with
  | task_future.empty => none
  | task_future.shared s => some ((h.futures s).result, f.wait h)

/-! ## Strings -/

/-- Whether the character list `s` starts with `pat`. -/
def starts_with_chars : List Char → List Char → Bool
  | _, [] => true
  | [], _ :: _ => false
  | c :: s, p :: pat => c == p && starts_with_chars s pat

/-- The search of `std::string::find` from position 0 on character lists: the first
position at which `pat` occurs in `s`, `none` for `npos`. -/
def find_chars (s pat : List Char) : Option Nat :=
  if starts_with_chars s pat then some 0
  else
    match s with
    | [] => none
    | _ :: t => (find_chars t pat).map (· + 1)

/-- The call `key.find(pat)` of `std::string`. -/
def string_find (key pat : String) : Option Nat :=
  find_chars key.data pat.data

/-- Modelled from the spec: `string_utils::begins_with(s, value, ignore_case)` (declared in
`core/common/string.h`, outside the sources): whether `s` begins with `value`, comparing
characters case-insensitively when `ignore_case` is set. -/
def begins_with (s value : String) (ignore_case : Bool) : Bool :=
  if ignore_case then
    starts_with_chars (s.data.map Char.toLower) (value.data.map Char.toLower)
  else starts_with_chars s.data value.data

/-! ## Containers -/

/-- The alias `request_container_t<T>`: key to future, read by first match. -/
abbrev request_container_t := List (String × task_future)

/-- The lookup `container.find(key)`: the mapped future, `none` for `end()`. -/
def container_find : request_container_t → String → Option task_future
  | [], _ => none
  | (k, v) :: rest, key => if k = key then some v else container_find rest key

/-- The assignment `container[key] = v`, also the assignment through a reference to the mapped
value of `key`: overwrites the mapped future in place, inserts the pair when `key` is absent. -/
def container_assign : request_container_t → String → task_future → request_container_t
  | [], key, v => [(key, v)]
  | (k, w) :: rest, key, v =>
    if k = key then (k, v) :: rest else (k, w) :: container_assign rest key v

/-- The removal `container.erase(key)`, also `container.erase(it)` for the iterator found
for `key`. -/
def container_erase (c : request_container_t) (key : String) : request_container_t :=
  c.filter (fun p => !decide (p.1 = key))

/-- The invocations of storage delegates, in the order they happen; `T` identifies the storage. -/
inductive event where
  | load_from_memory (T : Nat) (key : String) (data : Nat) (size : Nat)
  | load_from_file (T : Nat) (key : String) (mode : load_mode) (original : asset_handle)
  | load_from_instance (T : Nat) (key : String) (entry : Option Nat)
  | save_to_file (T : Nat) (key : String) (asset : asset_handle)
  | rename_asset_file (T : Nat) (key : String) (new_key : String)
  | delete_asset_file (T : Nat) (key : String)
  deriving DecidableEq, Repr

/-- What the manager's operations act on besides the manager itself: the heap and the log of
delegate invocations. -/
structure Env where
  heap : Heap
  log : List event

/-- The struct `asset_storage<T>`: the loading delegates and the container. A loading delegate is
external code: it returns a future and may allocate and write links and future states. The
delegates `save_to_file`, `rename_asset_file` and `delete_asset_file` receive keys and act on the
backing store only; their invocations are recorded in the log. -/
structure asset_storage where
  load_from_memory : String → Nat → Nat → Heap → task_future × Heap
  load_from_file : String → load_mode → asset_handle → Heap → task_future × Heap
  load_from_instance : String → Option Nat → Heap → task_future × Heap
  container : request_container_t

/-- The method `asset_storage::clear()`. -/
def asset_storage.clear (st : asset_storage) : asset_storage :=
  { st with container := [] }

/-- One iteration of the loop of `asset_storage::clear(protocol)`, with `bw` for
`string_utils::begins_with`. -/
def clear_protocol_step (bw : String → String → Bool → Bool) (protocol : String)
    (acc : request_container_t × Heap) (pair : String × task_future) :
    request_container_t × Heap :=
  if bw pair.1 protocol true then (container_erase acc.1 pair.1, pair.2.wait acc.2)
  else acc

/-- The method `asset_storage::clear(const std::string& protocol)`: iterates over a copy of the
container; `bw` stands for `string_utils::begins_with`. -/
def asset_storage.clear_protocol (bw : String → String → Bool → Bool) (st : asset_storage)
    (protocol : String) (h : Heap) : asset_storage × Heap :=
  let container_copy := st.container
  let r := container_copy.foldl (clear_protocol_step bw protocol) (st.container, h)
  ({ st with container := r.1 }, r.2)

/-! ## The manager -/

/-- The class `asset_manager`: the registered storages, keyed by the hash code of the
storage type. -/
structure asset_manager where
  _storages : List (Nat × asset_storage)

/-- The lookup `_storages.find(hash)`. -/
def storages_find : List (Nat × asset_storage) → Nat → Option asset_storage
  | [], _ => none
  | (t, st) :: rest, T => if t = T then some st else storages_find rest T

/-- A write through the reference returned by `get_storage<T>()`: replaces the storage
registered for `T`. -/
def storages_put : List (Nat × asset_storage) → Nat → asset_storage → List (Nat × asset_storage)
  | [], _, _ => []
  | (t, st) :: rest, T, v =>
    if t = T then (t, v) :: rest else (t, st) :: storages_put rest T v

namespace asset_manager

/-- The method `get_storage<S>()`: the storage registered for the type; the assertion fails
(`none`) when the type was never registered. -/
def get_storage (m : asset_manager) (T : Nat) : Option asset_storage :=
  storages_find m._storages T

/-- Stores back the storage of type `T` after a mutation through its reference. -/
def put_storage (m : asset_manager) (T : Nat) (st : asset_storage) : asset_manager :=
  ⟨storages_put m._storages T st⟩

/-- The method `add_storage<S>(args...)`: `emplace` keeps an already registered storage. -/
def add_storage (m : asset_manager) (T : Nat) (st : asset_storage) : asset_manager :=
  match storages_find m._storages T with
  | some _ => m
  | none => ⟨m._storages ++ [(T, st)]⟩

/-- The method `find_asset_impl<T>`. -/
def find_asset_impl (key : String) (container : request_container_t) : task_future :=
  match container_find container key with
  | some future => future
  | none => task_future.empty

/-- The method `load_asset_from_file_impl<T>`: returns the future together with the container
and the environment as the call leaves them. -/
def load_asset_from_file_impl (T : Nat) (key : String) (mode : load_mode) (flags : load_flags)
    (container : request_container_t)
    (load_func : String → load_mode → asset_handle → Heap → task_future × Heap)
    (env : Env) : Option (task_future × request_container_t × Env) :=
  match container_find container key with
  | some future =>
    if flags = load_flags.reload ∧ future.is_ready env.heap = true then
      match future.get env.heap with
      | none => none
      | some (original, h1) =>
        let r := load_func key mode original h1
        let log1 := env.log ++ [event.load_from_file T key mode original]
        let h2 := if mode = load_mode.sync then r.1.wait r.2 else r.2
        some (r.1, container_assign container key r.1, ⟨h2, log1⟩)
    else
      let h2 := if mode = load_mode.sync then future.wait env.heap else env.heap
      some (future, container, ⟨h2, env.log⟩)
  | none =>
    let original := asset_handle.make env.heap
    let r := load_func key mode original.1 original.2
    some (r.1, container_assign container key r.1,
      ⟨r.2, env.log ++ [event.load_from_file T key mode original.1]⟩)

/-- The method `create_asset_from_memory_impl<T>`. -/
def create_asset_from_memory_impl (T : Nat) (key : String) (data : Nat) (size : Nat)
    (_mode : load_mode) (_flags : load_flags) (container : request_container_t)
    (load_func : String → Nat → Nat → Heap → task_future × Heap)
    (env : Env) : task_future × request_container_t × Env :=
  match container_find container key with
  | some future => (future, container, env)
  | none =>
    let r := load_func key data size env.heap
    (r.1, container_assign container key r.1,
      ⟨r.2, env.log ++ [event.load_from_memory T key data size]⟩)

/-- The method `load_asset_from_instance_impl<T>`. -/
def load_asset_from_instance_impl (T : Nat) (key : String) (entry : Option Nat)
    (container : request_container_t)
    (load_func : String → Option Nat → Heap → task_future × Heap)
    (env : Env) : task_future × request_container_t × Env :=
  let r := load_func key entry env.heap
  (r.1, container_assign container key r.1,
    ⟨r.2, env.log ++ [event.load_from_instance T key entry]⟩)

/-- The method `load<T>(key, mode, flags)`. -/
def load (T : Nat) (key : String) (mode : load_mode) (flags : load_flags)
    (m : asset_manager) (env : Env) : Option (task_future × asset_manager × Env) :=
  match m.get_storage T with
  | none => none
  | some storage =>
    if string_find key "embedded" ≠ none then
      some (find_asset_impl key storage.container, m, env)
    else
      match load_asset_from_file_impl T key mode flags storage.container
          storage.load_from_file env with
      | none => none
      | some (future, c, env1) =>
        some (future, m.put_storage T { storage with container := c }, env1)

/-- The method `create_asset_from_memory<T>(key, data, size, mode, flags)`. -/
def create_asset_from_memory (T : Nat) (key : String) (data : Nat) (size : Nat)
    (mode : load_mode) (flags : load_flags)
    (m : asset_manager) (env : Env) : Option (task_future × asset_manager × Env) :=
  match m.get_storage T with
  | none => none
  | some storage =>
    let r := create_asset_from_memory_impl T key data size mode flags storage.container
      storage.load_from_memory env
    some (r.1, m.put_storage T { storage with container := r.2.1 }, r.2.2)

/-- The method `find_asset_entry<T>(key)`. -/
def find_asset_entry (T : Nat) (key : String) (m : asset_manager) : Option task_future :=
  match m.get_storage T with
  | none => none
  | some storage => some (find_asset_impl key storage.container)

/-- The method `load_asset_from_instance<T>(key, entry)`. -/
def load_asset_from_instance (T : Nat) (key : String) (entry : Option Nat)
    (m : asset_manager) (env : Env) : Option (task_future × asset_manager × Env) :=
  match m.get_storage T with
  | none => none
  | some storage =>
    let r := load_asset_from_instance_impl T key entry storage.container
      storage.load_from_instance env
    some (r.1, m.put_storage T { storage with container := r.2.1 }, r.2.2)

/-- The method `rename_asset<T>(key, new_key)`. -/
def rename_asset (T : Nat) (key new_key : String)
    (m : asset_manager) (env : Env) : Option (asset_manager × Env) :=
  match m.get_storage T with
  | none => none
  | some storage =>
    let log1 := env.log ++ [event.rename_asset_file T key new_key]
    match container_find storage.container key with
    | some future =>
      match future.get env.heap with
      | none => none
      | some (asset, h1) =>
        let h2 := h1.set_link asset.link { h1.links asset.link with id := new_key }
        let c1 := container_assign storage.container new_key future
        let c2 := container_erase c1 key
        some (m.put_storage T { storage with container := c2 }, ⟨h2, log1⟩)
    | none => some (m, ⟨env.heap, log1⟩)

/-- The method `clear_asset<T>(key)`. -/
def clear_asset (T : Nat) (key : String)
    (m : asset_manager) (env : Env) : Option (asset_manager × Env) :=
  match m.get_storage T with
  | none => none
  | some storage =>
    match container_find storage.container key with
    | some future =>
      match future.get env.heap with
      | none => none
      | some (asset, h1) =>
        let h2 := h1.set_link asset.link { h1.links asset.link with asset := none }
        let h3 := h2.set_link asset.link { h2.links asset.link with id := "" }
        some (m.put_storage T { storage with container := container_erase storage.container key },
          ⟨h3, env.log⟩)
    | none => some (m, env)

/-- The method `delete_asset<T>(key)`. -/
def delete_asset (T : Nat) (key : String)
    (m : asset_manager) (env : Env) : Option (asset_manager × Env) :=
  match m.get_storage T with
  | none => none
  | some _ =>
    clear_asset T key m ⟨env.heap, env.log ++ [event.delete_asset_file T key]⟩

/-- The method `save<T>(asset)`: the key passed to the delegate is `asset.id()`, the id of the
handle's link. -/
def save (T : Nat) (asset : asset_handle)
    (m : asset_manager) (env : Env) : Option (asset_manager × Env) :=
  match m.get_storage T with
  | none => none
  | some _ =>
    some (m, ⟨env.heap, env.log ++ [event.save_to_file T (env.heap.links asset.link).id asset]⟩)

/-- The method `asset_manager::clear()`: clears every storage. -/
def clear (m : asset_manager) : asset_manager :=
  ⟨m._storages.map (fun pair => (pair.1, pair.2.clear))⟩

/-- The loop of `asset_manager::clear(protocol)` over the registered storages. -/
def clear_protocol_storages (bw : String → String → Bool → Bool) (protocol : String) :
    List (Nat × asset_storage) → Heap → List (Nat × asset_storage) × Heap
  | [], h => ([], h)
  | (t, st) :: rest, h =>
    let r := st.clear_protocol bw protocol h
    let rs := clear_protocol_storages bw protocol rest r.2
    ((t, r.1) :: rs.1, rs.2)

/-- The method `asset_manager::clear(const std::string& protocol)`; `bw` stands for
`string_utils::begins_with`. -/
def clear_protocol (bw : String → String → Bool → Bool) (protocol : String)
    (m : asset_manager) (env : Env) : asset_manager × Env :=
  let r := clear_protocol_storages bw protocol m._storages env.heap
  (⟨r.1⟩, ⟨r.2, env.log⟩)

/-- Runs `load<T>(key, mode, flags)` `n` times in succession and collects the returned futures
in call order. -/
def load_repeat (T : Nat) (key : String) (mode : load_mode) (flags : load_flags) :
    Nat → asset_manager → Env → Option (List task_future × asset_manager × Env)
  | 0, m, env => some ([], m, env)
  | n + 1, m, env =>
    match load T key mode flags m env with
    | none => none
    | some (future, m1, env1) =>
      match load_repeat T key mode flags n m1 env1 with
      | none => none
      | some (futures, m2, env2) => some (future :: futures, m2, env2)

end asset_manager

/-! ## Sample delegates and states

Concrete delegates, used to evaluate the operations on explicit inputs. -/

/-- A loading delegate that dispatches the work and returns at once: the future it returns is
pending, and its result is the handle it was given, rebound to `key` and to a new resource. -/
def pool_load_from_file (key : String) (_mode : load_mode) (original : asset_handle)
    (h : Heap) : task_future × Heap :=
  (task_future.shared h.next_future,
    { (h.set_link original.link ⟨key, some h.next_future⟩).set_future h.next_future
        ⟨false, original⟩ with next_future := h.next_future + 1 })

/-- A delegate that wraps an existing instance in a handle to a new link; the future it returns
is ready. -/
def pool_load_from_instance (key : String) (entry : Option Nat) (h : Heap) :
    task_future × Heap :=
  (task_future.shared h.next_future,
    { ((h.set_link h.next_link ⟨key, entry⟩).set_future h.next_future
        ⟨true, ⟨h.next_link⟩⟩) with
      next_link := h.next_link + 1, next_future := h.next_future + 1 })

/-- A delegate that decodes a buffer into a new link; the future it returns is pending. -/
def pool_load_from_memory (key : String) (data : Nat) (_size : Nat) (h : Heap) :
    task_future × Heap :=
  (task_future.shared h.next_future,
    { ((h.set_link h.next_link ⟨key, some data⟩).set_future h.next_future
        ⟨false, ⟨h.next_link⟩⟩) with
      next_link := h.next_link + 1, next_future := h.next_future + 1 })

/-- A storage with the sample delegates and the given container. -/
def sample_storage (c : request_container_t) : asset_storage :=
  ⟨pool_load_from_memory, pool_load_from_file, pool_load_from_instance, c⟩

/-- A manager with one registered storage, of type 7, holding the given container. -/
def sample_manager (c : request_container_t) : asset_manager :=
  asset_manager.add_storage ⟨[]⟩ 7 (sample_storage c)

/-- A heap in which no link holds an asset; future state 0 is ready when `r` is set and yields
a handle to link 0, whose id is `a` and whose asset is object 5. -/
def sample_heap (r : Bool) : Heap :=
  ⟨fun i => if i = 0 then ⟨"a", some 5⟩ else ⟨"", none⟩, 1,
    fun i => if i = 0 then ⟨r, ⟨0⟩⟩ else ⟨false, ⟨0⟩⟩, 1⟩

/-- The environment over `sample_heap r` with an empty log. -/
def sample_env (r : Bool) : Env :=
  ⟨sample_heap r, []⟩

/-- An environment with no link, no future state and an empty log. -/
def empty_env : Env :=
  ⟨⟨fun _ => ⟨"", none⟩, 0, fun _ => ⟨false, ⟨0⟩⟩, 0⟩, []⟩

/-- A run of the manager from an empty storage: load `a` and take the handle of the returned
future; `clear()` every storage; load `a` again and take the second handle; `delete_asset` `a`.
Reports the two handles, the asset each of them observes after the delete, and what
`find_asset_entry` returns for `a`. -/
def stale_handle_scenario :
    Option (asset_handle × asset_handle × Option Nat × Option Nat × task_future) := do
  let r1 ← asset_manager.load 7 "a" load_mode.async load_flags.standard (sample_manager [])
    empty_env
  let g1 ← r1.1.get r1.2.2.heap
  let r2 ← asset_manager.load 7 "a" load_mode.async load_flags.standard r1.2.1.clear
    ⟨g1.2, r1.2.2.log⟩
  let g2 ← r2.1.get r2.2.2.heap
  let r3 ← asset_manager.delete_asset 7 "a" r2.2.1 ⟨g2.2, r2.2.2.log⟩
  let f ← asset_manager.find_asset_entry 7 "a" r3.1
  pure (g1.1, g2.1, (r3.2.heap.links g1.1.link).asset, (r3.2.heap.links g2.1.link).asset, f)

/-- A synchronous standard `load` of `a` on a storage without entries: the returned future and
whether it is ready when the call returns. -/
def sync_miss_scenario : Option (task_future × Bool) := do
  let r ← asset_manager.load 7 "a" load_mode.sync load_flags.standard (sample_manager [])
    empty_env
  pure (r.1, r.1.is_ready r.2.2.heap)

/-- A synchronous standard `load` of `a` on a storage in which `a` holds a pending future: the
returned future and whether it is ready when the call returns. -/
def sync_hit_scenario : Option (task_future × Bool) := do
  let r ← asset_manager.load 7 "a" load_mode.sync load_flags.standard
    (sample_manager [("a", task_future.shared 0)]) (sample_env false)
  pure (r.1, r.1.is_ready r.2.2.heap)

/-- A `rename_asset` of `a` to `a` on a storage in which `a` holds a ready future: what
`find_asset_entry` returns for `a` afterwards, and the id of the future's link. -/
def rename_same_key_scenario : Option (task_future × String) := do
  let r ← asset_manager.rename_asset 7 "a" "a" (sample_manager [("a", task_future.shared 0)])
    (sample_env true)
  let f ← asset_manager.find_asset_entry 7 "a" r.1
  pure (f, (r.2.heap.links 0).id)

/-! ## The statements of a first load

The header declares no mutex and no atomic. A `load` of a key without entry runs three
statements of `load_asset_from_file_impl` one after another: the lookup `container.find(key)`
(line 326), the subscript `container[key]` that inserts a default-constructed future (line 346),
and the dispatch that assigns the delegate's result to that slot (lines 348 to 351). The
definitions below are these statements, so that a second call can be placed between them. -/

/-- The subscript `container[key]`: inserts a default-constructed future under `key` when the
key has no entry and leaves the container as it is otherwise. -/
def container_index (c : request_container_t) (key : String) : request_container_t :=
  match container_find c key with
  | some _ => c
  | none => container_assign c key task_future.empty

namespace asset_manager

/-- The test of `load` (line 190) and the lookup of `load_asset_from_file_impl` (lines 326 and
327): whether the call goes to the branch for a key without entry (line 344). -/
def load_lookup_miss (T : Nat) (key : String) (m : asset_manager) : Bool :=
  match m.get_storage T with
  | none => false
  | some storage =>
    if string_find key "embedded" ≠ none then false
    else
      match container_find storage.container key with
      | some _ => false
      | none => true

/-- Line 346 of `load_asset_from_file_impl`, on the storage of type `T`:
`auto& future = container[key];`. -/
def load_insert (T : Nat) (key : String) (m : asset_manager) : Option asset_manager :=
  match m.get_storage T with
  | none => none
  | some storage =>
    some (m.put_storage T { storage with container := container_index storage.container key })

/-- Lines 348 to 351 of `load_asset_from_file_impl`, on the storage of type `T`: the handle
`original` is default-constructed, the delegate is called, its result is assigned to the slot of
`key` and returned. -/
def load_dispatch (T : Nat) (key : String) (mode : load_mode)
    (m : asset_manager) (env : Env) : Option (task_future × asset_manager × Env) :=
  match m.get_storage T with
  | none => none
  | some storage =>
    let original := asset_handle.make env.heap
    let r := storage.load_from_file key mode original.1 original.2
    some (r.1,
      m.put_storage T { storage with container := container_assign storage.container key r.1 },
      ⟨r.2, env.log ++ [event.load_from_file T key mode original.1]⟩)

/-- Two calls `load<T>(key, mode, standard)`, A and B, of which B runs as a whole between the
insertion (line 346) and the dispatch (line 348) of A. Returns the future A receives, the future
B receives, and the manager and environment at the end. -/
def load_overlapped (T : Nat) (key : String) (mode : load_mode)
    (m : asset_manager) (env : Env) :
    Option (task_future × task_future × asset_manager × Env) :=
  if load_lookup_miss T key m = true then
    match load_insert T key m with
    | none => none
    | some m1 =>
      match load T key mode load_flags.standard m1 env with
      | none => none
      | some (future_b, m2, env2) =>
        match load_dispatch T key mode m2 env2 with
        | none => none
        | some (future_a, m3, env3) => some (future_a, future_b, m3, env3)
  else none

/-- Two calls `load<T>(key, mode, standard)`, A and B, whose lookups (line 326) both run before
either insertion; A then runs to its end, and B after it. Returns the future A receives, the
future B receives, and the manager and environment at the end. -/
def load_double_lookup (T : Nat) (key : String) (mode : load_mode)
    (m : asset_manager) (env : Env) :
    Option (task_future × task_future × asset_manager × Env) :=
  if load_lookup_miss T key m = true ∧ load_lookup_miss T key m = true then
    match load_insert T key m with
    | none => none
    | some m1 =>
      match load_dispatch T key mode m1 env with
      | none => none
      | some (future_a, m2, env2) =>
        match load_insert T key m2 with
        | none => none
        | some m3 =>
          match load_dispatch T key mode m3 env2 with
          | none => none
          | some (future_b, m4, env4) => some (future_a, future_b, m4, env4)
  else none

end asset_manager

/-- The run `load_overlapped` for the key `a` on a storage without entries: the future of A, the
future of B, the number of delegate invocations, and what `find_asset_entry` returns at the
end. -/
def overlapped_load_scenario : Option (task_future × task_future × Nat × task_future) := do
  let r ← asset_manager.load_overlapped 7 "a" load_mode.async (sample_manager []) empty_env
  let f ← asset_manager.find_asset_entry 7 "a" r.2.2.1
  pure (r.1, r.2.1, r.2.2.2.log.length, f)

/-- The run `load_double_lookup` for the key `a` on a storage without entries: the future of A,
the future of B, the number of delegate invocations, and what `find_asset_entry` returns at the
end. -/
def double_lookup_load_scenario : Option (task_future × task_future × Nat × task_future) := do
  let r ← asset_manager.load_double_lookup 7 "a" load_mode.async (sample_manager []) empty_env
  let f ← asset_manager.find_asset_entry 7 "a" r.2.2.1
  pure (r.1, r.2.1, r.2.2.2.log.length, f)

end runtime

/-! ## Lemmas on containers and storages -/

namespace runtime

theorem container_find_assign (c : request_container_t) (key : String) (v : task_future)
    (k : String) :
    container_find (container_assign c key v) k
      = if k = key then some v else container_find c k := by
  induction c with
  | nil =>
    by_cases h : k = key
    · simp [container_assign, container_find, h]
    · have h2 : ¬ key = k := fun e => h e.symm
      simp [container_assign, container_find, h, h2]
  | cons p rest ih =>
    obtain ⟨k0, w⟩ := p
    by_cases h0 : k0 = key
    · subst h0
      by_cases h : k = k0
      · simp [container_assign, container_find, h]
      · have h2 : ¬ k0 = k := fun e => h e.symm
        simp [container_assign, container_find, h, h2]
    · by_cases h1 : k0 = k
      · subst h1
        simp [container_assign, container_find, h0]
      · simp [container_assign, container_find, h0, h1, ih]

theorem container_find_assign_self (c : request_container_t) (key : String) (v : task_future) :
    container_find (container_assign c key v) key = some v := by
  simp [container_find_assign]

theorem container_find_assign_other (c : request_container_t) (key : String) (v : task_future)
    (k : String) (h : k ≠ key) :
    container_find (container_assign c key v) k = container_find c k := by
  simp [container_find_assign, h]

theorem container_find_erase (c : request_container_t) (key : String) (k : String) :
    container_find (container_erase c key) k
      = if k = key then none else container_find c k := by
  induction c with
  | nil => simp [container_erase, container_find]
  | cons p rest ih =>
    obtain ⟨k0, w⟩ := p
    unfold container_erase at ih ⊢
    by_cases h0 : k0 = key
    · subst h0
      by_cases h : k = k0
      · subst h
        simpa [List.filter_cons] using ih
      · have h2 : ¬ k0 = k := fun e => h e.symm
        simpa [List.filter_cons, container_find, h, h2] using ih
    · by_cases h1 : k0 = k
      · subst h1
        simp [List.filter_cons, container_find, h0]
      · rw [List.filter_cons]
        simp only [h0, decide_False, Bool.not_false, if_true, container_find, h1, if_false]
        exact ih

theorem storages_find_put_self (l : List (Nat × asset_storage)) (T : Nat) (st v : asset_storage)
    (h : storages_find l T = some st) :
    storages_find (storages_put l T v) T = some v := by
  induction l with
  | nil => simp [storages_find] at h
  | cons p rest ih =>
    obtain ⟨t, s0⟩ := p
    by_cases ht : t = T
    · simp [storages_put, storages_find, ht]
    · simp [storages_find, ht] at h
      simp [storages_put, storages_find, ht, ih h]

theorem storages_find_put_other (l : List (Nat × asset_storage)) (T : Nat) (v : asset_storage)
    (T2 : Nat) (h : T2 ≠ T) :
    storages_find (storages_put l T v) T2 = storages_find l T2 := by
  induction l with
  | nil => simp [storages_put]
  | cons p rest ih =>
    obtain ⟨t, s0⟩ := p
    by_cases ht : t = T
    · subst ht
      have h2 : ¬ t = T2 := fun e => h e.symm
      simp [storages_put, storages_find, h2]
    · by_cases ht2 : t = T2
      · subst ht2
        simp [storages_put, storages_find, ht]
      · simp [storages_put, storages_find, ht, ht2, ih]

theorem storages_put_same (l : List (Nat × asset_storage)) (T : Nat) (st : asset_storage)
    (h : storages_find l T = some st) :
    storages_put l T st = l := by
  induction l with
  | nil => rfl
  | cons p rest ih =>
    obtain ⟨t, s0⟩ := p
    by_cases ht : t = T
    · simp [storages_find, ht] at h
      simp [storages_put, ht, h]
    · simp [storages_find, ht] at h
      simp [storages_put, ht, ih h]

namespace asset_manager

theorem get_storage_put_storage (m : asset_manager) (T : Nat) (st v : asset_storage)
    (h : m.get_storage T = some st) :
    (m.put_storage T v).get_storage T = some v :=
  storages_find_put_self m._storages T st v h

theorem put_storage_same (m : asset_manager) (T : Nat) (st : asset_storage)
    (h : m.get_storage T = some st) :
    m.put_storage T st = m := by
  cases m with
  | mk l => simp [put_storage, storages_put_same l T st h]

end asset_manager

end runtime

/-! ## Loading -/

namespace runtime

namespace asset_manager

/-- A `load` with standard flags of a key that has an entry returns the stored future, leaves the
manager and the log as they are, and waits on the future in synchronous mode. -/
theorem load_hit_standard (T : Nat) (K : String) (mode : load_mode) (m : asset_manager)
    (env : Env) (storage : asset_storage) (future : task_future)
    (hs : m.get_storage T = some storage)
    (hk : string_find K "embedded" = none)
    (hK : container_find storage.container K = some future) :
    load T K mode load_flags.standard m env
      = some (future, m,
          ⟨if mode = load_mode.sync then future.wait env.heap else env.heap, env.log⟩) := by
  have hput : m.put_storage T storage = m := put_storage_same m T storage hs
  simp [load, hs, hk, load_asset_from_file_impl, hK, hput]

/-- A `load` of a key that has no entry dispatches the delegate on an empty handle and stores the
returned future. -/
theorem load_miss (T : Nat) (K : String) (mode : load_mode) (flags : load_flags)
    (m : asset_manager) (env : Env) (storage : asset_storage)
    (hs : m.get_storage T = some storage)
    (hk : string_find K "embedded" = none)
    (hK : container_find storage.container K = none) :
    load T K mode flags m env
      = some ((storage.load_from_file K mode (asset_handle.make env.heap).1
                (asset_handle.make env.heap).2).1,
          m.put_storage T { storage with container := (container_assign storage.container K
            (storage.load_from_file K mode (asset_handle.make env.heap).1
              (asset_handle.make env.heap).2).1) },
          ⟨(storage.load_from_file K mode (asset_handle.make env.heap).1
              (asset_handle.make env.heap).2).2,
            env.log ++ [event.load_from_file T K mode (asset_handle.make env.heap).1]⟩) := by
  simp [load, hs, hk, load_asset_from_file_impl, hK]

/-- Repeated standard loads of a key that has an entry all return the stored future and change
neither the manager nor the log. -/
theorem load_repeat_hit (T : Nat) (K : String) (mode : load_mode) (m : asset_manager)
    (storage : asset_storage) (future : task_future)
    (hs : m.get_storage T = some storage)
    (hk : string_find K "embedded" = none)
    (hK : container_find storage.container K = some future) (n : Nat) :
    ∀ env : Env, ∃ env1 : Env,
      load_repeat T K mode load_flags.standard n m env
        = some (List.replicate n future, m, env1) ∧ env1.log = env.log := by
  induction n with
  | zero => intro env; exact ⟨env, rfl, rfl⟩
  | succ n ih =>
    intro env
    obtain ⟨env1, h1, hlog⟩ :=
      ih ⟨if mode = load_mode.sync then future.wait env.heap else env.heap, env.log⟩
    refine ⟨env1, ?_, hlog⟩
    simp [load_repeat, load_hit_standard T K mode m env storage future hs hk hK, h1,
      List.replicate_succ]

end asset_manager

/-- C1: for a key `K` without the embedded marker and a storage of type `T` with no entry for `K`,
`n ≥ 1` successive standard loads of `K` return `n` times the future that the `load_from_file`
delegate returned; the delegate is invoked exactly once, by the first call, with `K`, the mode
and an empty handle (a fresh link with empty id and no asset); afterwards that future is stored
under `K`, every other key maps to what it mapped to before, and the other storages are
untouched. -/
theorem load_sequential_single_flight (T : Nat) (K : String) (mode : load_mode)
    (m : asset_manager) (env : Env) (storage : asset_storage) (n : Nat)
    (hs : m.get_storage T = some storage)
    (hk : string_find K "embedded" = none)
    (hK : container_find storage.container K = none)
    (hn : 1 ≤ n) :
    ∃ (m1 : asset_manager) (env1 : Env) (storage1 : asset_storage),
      asset_manager.load_repeat T K mode load_flags.standard n m env
        = some (List.replicate n
            (storage.load_from_file K mode (asset_handle.make env.heap).1
              (asset_handle.make env.heap).2).1, m1, env1)
      ∧ env1.log = env.log ++ [event.load_from_file T K mode (asset_handle.make env.heap).1]
      ∧ (asset_handle.make env.heap).2.links (asset_handle.make env.heap).1.link = ⟨"", none⟩
      ∧ (∃ (m0 : asset_manager) (env0 : Env),
          asset_manager.load T K mode load_flags.standard m env
            = some ((storage.load_from_file K mode (asset_handle.make env.heap).1
                (asset_handle.make env.heap).2).1, m0, env0)
          ∧ env0.log = env.log ++ [event.load_from_file T K mode (asset_handle.make env.heap).1])
      ∧ m1.get_storage T = some storage1
      ∧ container_find storage1.container K
          = some (storage.load_from_file K mode (asset_handle.make env.heap).1
              (asset_handle.make env.heap).2).1
      ∧ (∀ k : String, k ≠ K →
          container_find storage1.container k = container_find storage.container k)
      ∧ (∀ T2 : Nat, T2 ≠ T → m1.get_storage T2 = m.get_storage T2) := by
  obtain ⟨k, rfl⟩ : ∃ k, n = k + 1 := ⟨n - 1, by omega⟩
  have hmiss := asset_manager.load_miss T K mode load_flags.standard m env storage hs hk hK
  generalize hf : (storage.load_from_file K mode (asset_handle.make env.heap).1
    (asset_handle.make env.heap).2) = r at hmiss ⊢
  have hs1 : (m.put_storage T { storage with
      container := (container_assign storage.container K r.1) }).get_storage T
        = some { storage with container := (container_assign storage.container K r.1) } :=
    asset_manager.get_storage_put_storage m T storage _ hs
  obtain ⟨env1, hrep, hlog⟩ := asset_manager.load_repeat_hit T K mode _ _ r.1 hs1 hk
    (container_find_assign_self storage.container K r.1) k
    ⟨r.2, env.log ++ [event.load_from_file T K mode (asset_handle.make env.heap).1]⟩
  refine ⟨_, env1, _, ?_, hlog, ?_, ⟨_, _, hmiss, rfl⟩, hs1,
    container_find_assign_self storage.container K r.1, ?_, ?_⟩
  · simp [asset_manager.load_repeat, hmiss, hrep, List.replicate_succ]
  · simp [asset_handle.make, Heap.set_link]
  · intro k2 hk2
    exact container_find_assign_other storage.container K r.1 k2 hk2
  · intro T2 hT2
    exact storages_find_put_other m._storages T _ T2 hT2

/-- Witness for C1: three successive loads of `data/a` on a storage without entries. -/
theorem load_sequential_single_flight_witness :
    ∃ (m1 : asset_manager) (env1 : Env) (storage1 : asset_storage),
      asset_manager.load_repeat 7 "data/a" load_mode.sync load_flags.standard 3
          (sample_manager []) (sample_env false)
        = some (List.replicate 3
            ((sample_storage []).load_from_file "data/a" load_mode.sync
              (asset_handle.make (sample_env false).heap).1
              (asset_handle.make (sample_env false).heap).2).1, m1, env1)
      ∧ env1.log = (sample_env false).log
          ++ [event.load_from_file 7 "data/a" load_mode.sync
                (asset_handle.make (sample_env false).heap).1]
      ∧ (asset_handle.make (sample_env false).heap).2.links
          (asset_handle.make (sample_env false).heap).1.link = ⟨"", none⟩
      ∧ (∃ (m0 : asset_manager) (env0 : Env),
          asset_manager.load 7 "data/a" load_mode.sync load_flags.standard
              (sample_manager []) (sample_env false)
            = some (((sample_storage []).load_from_file "data/a" load_mode.sync
                (asset_handle.make (sample_env false).heap).1
                (asset_handle.make (sample_env false).heap).2).1, m0, env0)
          ∧ env0.log = (sample_env false).log
              ++ [event.load_from_file 7 "data/a" load_mode.sync
                    (asset_handle.make (sample_env false).heap).1])
      ∧ m1.get_storage 7 = some storage1
      ∧ container_find storage1.container "data/a"
          = some ((sample_storage []).load_from_file "data/a" load_mode.sync
              (asset_handle.make (sample_env false).heap).1
              (asset_handle.make (sample_env false).heap).2).1
      ∧ (∀ k : String, k ≠ "data/a" →
          container_find storage1.container k = container_find (sample_storage []).container k)
      ∧ (∀ T2 : Nat, T2 ≠ 7 → m1.get_storage T2 = (sample_manager []).get_storage T2) :=
  load_sequential_single_flight 7 "data/a" load_mode.sync (sample_manager []) (sample_env false)
    (sample_storage []) 3 rfl (by decide) rfl (by decide)

/-- C2: a `load` with the reload flag of a key `K` (without the embedded marker) that has an
entry dispatches the `load_from_file` delegate exactly once when the stored future is ready, with
`K`, the mode and the handle held by that future, and replaces the stored future by the
delegate's result, which it returns; when the stored future is not ready the delegate is not
invoked, the manager is unchanged and the stored future is returned. -/
theorem load_reload_only_when_ready (T : Nat) (K : String) (mode : load_mode)
    (m : asset_manager) (env : Env) (storage : asset_storage) (future : task_future)
    (hs : m.get_storage T = some storage)
    (hk : string_find K "embedded" = none)
    (hK : container_find storage.container K = some future) :
    (future.is_ready env.heap = true →
      ∃ (original : asset_handle) (m1 : asset_manager) (env1 : Env) (storage1 : asset_storage),
        future.get env.heap = some (original, env.heap)
        ∧ asset_manager.load T K mode load_flags.reload m env
            = some ((storage.load_from_file K mode original env.heap).1, m1, env1)
        ∧ env1.log = env.log ++ [event.load_from_file T K mode original]
        ∧ m1.get_storage T = some storage1
        ∧ container_find storage1.container K
            = some (storage.load_from_file K mode original env.heap).1
        ∧ (∀ k : String, k ≠ K →
            container_find storage1.container k = container_find storage.container k))
    ∧ (future.is_ready env.heap = false →
      ∃ env1 : Env,
        asset_manager.load T K mode load_flags.reload m env = some (future, m, env1)
        ∧ env1.log = env.log) := by
  constructor
  · intro hr
    cases future with
    | empty => simp [task_future.is_ready] at hr
    | shared s =>
      have hrd : (env.heap.futures s).ready = true := by simpa [task_future.is_ready] using hr
      have hget : (task_future.shared s).get env.heap
          = some ((env.heap.futures s).result, env.heap) := by
        simp [task_future.get, task_future.wait, hrd]
      refine ⟨(env.heap.futures s).result,
        m.put_storage T { storage with container := (container_assign storage.container K
          (storage.load_from_file K mode (env.heap.futures s).result env.heap).1) },
        ⟨if mode = load_mode.sync then
            (storage.load_from_file K mode (env.heap.futures s).result env.heap).1.wait
              (storage.load_from_file K mode (env.heap.futures s).result env.heap).2
          else (storage.load_from_file K mode (env.heap.futures s).result env.heap).2,
          env.log ++ [event.load_from_file T K mode (env.heap.futures s).result]⟩,
        { storage with container := (container_assign storage.container K
          (storage.load_from_file K mode (env.heap.futures s).result env.heap).1) },
        hget, ?_, rfl,
        asset_manager.get_storage_put_storage m T storage _ hs,
        container_find_assign_self storage.container K _, ?_⟩
      · simp [asset_manager.load, hs, hk, asset_manager.load_asset_from_file_impl, hK, hr,
          hget]
      · intro k hk2
        exact container_find_assign_other storage.container K _ k hk2
  · intro hr
    have hput : m.put_storage T storage = m := asset_manager.put_storage_same m T storage hs
    refine ⟨⟨if mode = load_mode.sync then future.wait env.heap else env.heap, env.log⟩, ?_, rfl⟩
    simp [asset_manager.load, hs, hk, asset_manager.load_asset_from_file_impl, hK, hr, hput]

/-- Witness for C2: a reload of `a` with the stored future ready, and with it pending. -/
theorem load_reload_only_when_ready_witness :
    (∃ (original : asset_handle) (m1 : asset_manager) (env1 : Env) (storage1 : asset_storage),
        (task_future.shared 0).get (sample_env true).heap = some (original, (sample_env true).heap)
        ∧ asset_manager.load 7 "a" load_mode.async load_flags.reload
              (sample_manager [("a", task_future.shared 0)]) (sample_env true)
            = some (((sample_storage [("a", task_future.shared 0)]).load_from_file "a"
                load_mode.async original (sample_env true).heap).1, m1, env1)
        ∧ env1.log = (sample_env true).log ++ [event.load_from_file 7 "a" load_mode.async original]
        ∧ m1.get_storage 7 = some storage1
        ∧ container_find storage1.container "a"
            = some ((sample_storage [("a", task_future.shared 0)]).load_from_file "a"
                load_mode.async original (sample_env true).heap).1
        ∧ (∀ k : String, k ≠ "a" →
            container_find storage1.container k
              = container_find (sample_storage [("a", task_future.shared 0)]).container k))
    ∧ (∃ env1 : Env,
        asset_manager.load 7 "a" load_mode.async load_flags.reload
            (sample_manager [("a", task_future.shared 0)]) (sample_env false)
          = some (task_future.shared 0, sample_manager [("a", task_future.shared 0)], env1)
        ∧ env1.log = (sample_env false).log) :=
  ⟨(load_reload_only_when_ready 7 "a" load_mode.async
      (sample_manager [("a", task_future.shared 0)]) (sample_env true)
      (sample_storage [("a", task_future.shared 0)]) (task_future.shared 0)
      rfl (by decide) (by decide)).1 rfl,
   (load_reload_only_when_ready 7 "a" load_mode.async
      (sample_manager [("a", task_future.shared 0)]) (sample_env false)
      (sample_storage [("a", task_future.shared 0)]) (task_future.shared 0)
      rfl (by decide) (by decide)).2 rfl⟩

/-- C7: a `load` of a key that contains the substring `embedded` never invokes a delegate and
changes neither the manager nor the environment, whatever the mode and the flags; it returns what
`find_asset_entry` returns: the stored future when the key has an entry, the empty future
otherwise. -/
theorem load_embedded_bypass (T : Nat) (K : String) (mode : load_mode) (flags : load_flags)
    (m : asset_manager) (env : Env) (storage : asset_storage)
    (hs : m.get_storage T = some storage)
    (hk : string_find K "embedded" ≠ none) :
    ∃ future : task_future,
      asset_manager.find_asset_entry T K m = some future
      ∧ asset_manager.load T K mode flags m env = some (future, m, env)
      ∧ (∀ stored : task_future,
          container_find storage.container K = some stored → future = stored)
      ∧ (container_find storage.container K = none → future = task_future.empty) := by
  refine ⟨asset_manager.find_asset_impl K storage.container, ?_, ?_, ?_, ?_⟩
  · simp [asset_manager.find_asset_entry, hs]
  · simp [asset_manager.load, hs, hk]
  · intro stored h
    simp [asset_manager.find_asset_impl, h]
  · intro h
    simp [asset_manager.find_asset_impl, h]

/-- Witness for C7: a reload of `embedded/x`, once stored and once absent. -/
theorem load_embedded_bypass_witness :
    (∃ future : task_future,
      asset_manager.find_asset_entry 7 "embedded/x"
          (sample_manager [("embedded/x", task_future.shared 0)]) = some future
      ∧ asset_manager.load 7 "embedded/x" load_mode.sync load_flags.reload
          (sample_manager [("embedded/x", task_future.shared 0)]) (sample_env true)
        = some (future, sample_manager [("embedded/x", task_future.shared 0)], sample_env true)
      ∧ (∀ stored : task_future,
          container_find (sample_storage [("embedded/x", task_future.shared 0)]).container
            "embedded/x" = some stored → future = stored)
      ∧ (container_find (sample_storage [("embedded/x", task_future.shared 0)]).container
            "embedded/x" = none → future = task_future.empty))
    ∧ asset_manager.load 7 "embedded/x" load_mode.sync load_flags.reload
          (sample_manager []) (sample_env true)
        = some (task_future.empty, sample_manager [], sample_env true) := by
  refine ⟨load_embedded_bypass 7 "embedded/x" load_mode.sync load_flags.reload
    (sample_manager [("embedded/x", task_future.shared 0)]) (sample_env true)
    (sample_storage [("embedded/x", task_future.shared 0)]) rfl (by decide), ?_⟩
  obtain ⟨future, _, hload, _, hnone⟩ :=
    load_embedded_bypass 7 "embedded/x" load_mode.sync load_flags.reload
      (sample_manager []) (sample_env true) (sample_storage []) rfl (by decide)
  rw [hload, hnone rfl]

/-- C8: `load_asset_from_instance` invokes the `load_from_instance` delegate exactly once, with
the key and the instance, whether or not the key has an entry and whatever state that entry is
in; it stores the returned future under the key, replacing any entry, returns it, and leaves
every other key as it was. -/
theorem load_asset_from_instance_overwrites (T : Nat) (K : String) (entry : Option Nat)
    (m : asset_manager) (env : Env) (storage : asset_storage)
    (hs : m.get_storage T = some storage) :
    ∃ (m1 : asset_manager) (storage1 : asset_storage),
      asset_manager.load_asset_from_instance T K entry m env
        = some ((storage.load_from_instance K entry env.heap).1, m1,
            ⟨(storage.load_from_instance K entry env.heap).2,
              env.log ++ [event.load_from_instance T K entry]⟩)
      ∧ m1.get_storage T = some storage1
      ∧ container_find storage1.container K
          = some (storage.load_from_instance K entry env.heap).1
      ∧ (∀ k : String, k ≠ K →
          container_find storage1.container k = container_find storage.container k) := by
  refine ⟨m.put_storage T { storage with container :=
      (container_assign storage.container K (storage.load_from_instance K entry env.heap).1) },
    { storage with container :=
      (container_assign storage.container K (storage.load_from_instance K entry env.heap).1) },
    ?_, asset_manager.get_storage_put_storage m T storage _ hs,
    container_find_assign_self storage.container K _, ?_⟩
  · simp [asset_manager.load_asset_from_instance, hs,
      asset_manager.load_asset_from_instance_impl]
  · intro k hk2
    exact container_find_assign_other storage.container K _ k hk2

/-- Witness for C8: binding an instance to `a` while `a` holds a pending future. -/
theorem load_asset_from_instance_overwrites_witness :
    ∃ (m1 : asset_manager) (storage1 : asset_storage),
      asset_manager.load_asset_from_instance 7 "a" (some 9)
          (sample_manager [("a", task_future.shared 0)]) (sample_env false)
        = some (((sample_storage [("a", task_future.shared 0)]).load_from_instance "a" (some 9)
              (sample_env false).heap).1, m1,
            ⟨((sample_storage [("a", task_future.shared 0)]).load_from_instance "a" (some 9)
              (sample_env false).heap).2,
              (sample_env false).log ++ [event.load_from_instance 7 "a" (some 9)]⟩)
      ∧ m1.get_storage 7 = some storage1
      ∧ container_find storage1.container "a"
          = some ((sample_storage [("a", task_future.shared 0)]).load_from_instance "a" (some 9)
              (sample_env false).heap).1
      ∧ (∀ k : String, k ≠ "a" →
          container_find storage1.container k
            = container_find (sample_storage [("a", task_future.shared 0)]).container k) :=
  load_asset_from_instance_overwrites 7 "a" (some 9)
    (sample_manager [("a", task_future.shared 0)]) (sample_env false)
    (sample_storage [("a", task_future.shared 0)]) rfl

/-! ## Protocol-scoped clear -/

theorem container_find_none_of_not_mem (c : request_container_t) (k : String)
    (h : k ∉ c.map Prod.fst) : container_find c k = none := by
  induction c with
  | nil => rfl
  | cons p rest ih =>
    obtain ⟨k0, w⟩ := p
    simp only [List.map_cons, List.mem_cons, not_or] at h
    have h0 : ¬ k0 = k := fun e => h.1 e.symm
    simp [container_find, h0, ih h.2]

/-- The loop of `asset_storage::clear(protocol)` over a list of visited pairs removes exactly the
visited keys that begin with the protocol. -/
theorem container_find_clear_loop (bw : String → String → Bool → Bool) (protocol : String)
    (visited : List (String × task_future)) :
    ∀ (c : request_container_t) (h : Heap) (k : String),
      container_find (visited.foldl (clear_protocol_step bw protocol) (c, h)).1 k
        = if bw k protocol true = true ∧ k ∈ visited.map Prod.fst then none
          else container_find c k := by
  induction visited with
  | nil => intro c h k; simp
  | cons p rest ih =>
    intro c h k
    obtain ⟨k0, w⟩ := p
    rw [List.foldl_cons]
    by_cases hb : bw k0 protocol true = true
    · have hstep : clear_protocol_step bw protocol (c, h) (k0, w)
          = (container_erase c k0, w.wait h) := by
        simp [clear_protocol_step, hb]
      rw [hstep, ih, container_find_erase]
      by_cases hk : k = k0
      · subst hk
        simp [hb]
      · by_cases hb2 : bw k protocol true = true <;>
          by_cases hm : k ∈ rest.map Prod.fst <;> simp [hb2, hm, hk]
    · have hstep : clear_protocol_step bw protocol (c, h) (k0, w) = (c, h) := by
        simp [clear_protocol_step, hb]
      rw [hstep, ih]
      by_cases hk : k = k0
      · subst hk
        simp [hb]
      · by_cases hb2 : bw k protocol true = true <;>
          by_cases hm : k ∈ rest.map Prod.fst <;> simp [hb2, hm, hk]

/-- After `asset_storage::clear(protocol)` a key maps to nothing when it begins with the
protocol and to its former future otherwise. -/
theorem container_find_clear_protocol (bw : String → String → Bool → Bool) (protocol : String)
    (st : asset_storage) (h : Heap) (k : String) :
    container_find (st.clear_protocol bw protocol h).1.container k
      = if bw k protocol true = true then none else container_find st.container k := by
  simp only [asset_storage.clear_protocol]
  rw [container_find_clear_loop]
  by_cases hb : bw k protocol true = true
  · by_cases hm : k ∈ st.container.map Prod.fst
    · simp [hb, hm]
    · simp [hb, hm, container_find_none_of_not_mem st.container k hm]
  · simp [hb]

theorem storages_find_clear_protocol (bw : String → String → Bool → Bool) (protocol : String)
    (T : Nat) (l : List (Nat × asset_storage)) :
    ∀ (h : Heap) (st : asset_storage), storages_find l T = some st →
      ∃ h1 : Heap,
        storages_find (asset_manager.clear_protocol_storages bw protocol l h).1 T
          = some (st.clear_protocol bw protocol h1).1 := by
  induction l with
  | nil => intro h st hst; simp [storages_find] at hst
  | cons p rest ih =>
    intro h st hst
    obtain ⟨t, s0⟩ := p
    by_cases ht : t = T
    · simp [storages_find, ht] at hst
      subst hst
      exact ⟨h, by simp [asset_manager.clear_protocol_storages, storages_find, ht]⟩
    · simp [storages_find, ht] at hst
      obtain ⟨h1, hh⟩ := ih (s0.clear_protocol bw protocol h).2 st hst
      exact ⟨h1, by simp [asset_manager.clear_protocol_storages, storages_find, ht, hh]⟩

/-- C6: after `asset_manager::clear(protocol)`, in every registered storage a key maps to a
future exactly when it did before the call and `begins_with(key, protocol, true)` (the
case-insensitive test, here any function `bw`) is false, and every key that still maps to a
future maps to the same future as before; no delegate is invoked. With the case-insensitive
`begins_with` of the spec and the keys `proto_a/x` and `proto_b/y`, clearing `proto_a` removes
`proto_a/x` and keeps `proto_b/y`. -/
theorem clear_protocol_selective :
    (∀ (bw : String → String → Bool → Bool) (protocol : String) (m : asset_manager) (env : Env)
        (T : Nat) (storage : asset_storage), m.get_storage T = some storage →
      ∃ storage1 : asset_storage,
        (asset_manager.clear_protocol bw protocol m env).1.get_storage T = some storage1
        ∧ (∀ k : String, container_find storage1.container k
            = if bw k protocol true = true then none else container_find storage.container k)
        ∧ (∀ k : String, container_find storage1.container k ≠ none
            ↔ (container_find storage.container k ≠ none ∧ bw k protocol true = false))
        ∧ (∀ (k : String) (f : task_future), container_find storage1.container k = some f →
            container_find storage.container k = some f)
        ∧ (asset_manager.clear_protocol bw protocol m env).2.log = env.log)
    ∧ (∃ storage1 : asset_storage,
        (asset_manager.clear_protocol begins_with "proto_a"
            (sample_manager [("proto_a/x", task_future.shared 0),
              ("proto_b/y", task_future.shared 1)]) (sample_env false)).1.get_storage 7
          = some storage1
        ∧ container_find storage1.container "proto_a/x" = none
        ∧ container_find storage1.container "proto_b/y" = some (task_future.shared 1)) := by
  constructor
  · intro bw protocol m env T storage hs
    obtain ⟨h1, hfind⟩ :=
      storages_find_clear_protocol bw protocol T m._storages env.heap storage hs
    have heq : ∀ k : String,
        container_find (storage.clear_protocol bw protocol h1).1.container k
          = if bw k protocol true = true then none else container_find storage.container k :=
      fun k => container_find_clear_protocol bw protocol storage h1 k
    refine ⟨(storage.clear_protocol bw protocol h1).1, hfind, heq, ?_, ?_, rfl⟩
    · intro k
      rw [heq k]
      by_cases hb : bw k protocol true = true
      · simp [hb]
      · simp [hb]
    · intro k f hf
      rw [heq k] at hf
      by_cases hb : bw k protocol true = true
      · simp [hb] at hf
      · simpa [hb] using hf
  · exact ⟨_, rfl, by decide, by decide⟩

/-! ## Rename and delete -/

theorem wait_links (f : task_future) (h : Heap) : (f.wait h).links = h.links := by
  cases f with
  | empty => rfl
  | shared s =>
    by_cases hr : (h.futures s).ready = true
    · simp [task_future.wait, hr]
    · simp [task_future.wait, hr, Heap.set_future]

theorem wait_result (f : task_future) (h : Heap) (s : Nat) :
    ((f.wait h).futures s).result = (h.futures s).result := by
  cases f with
  | empty => rfl
  | shared s0 =>
    by_cases hr : (h.futures s0).ready = true
    · simp [task_future.wait, hr]
    · by_cases hs : s = s0
      · subst hs
        simp [task_future.wait, hr, Heap.set_future]
      · simp [task_future.wait, hr, Heap.set_future, hs]

theorem wait_ready (s : Nat) (h : Heap) :
    (((task_future.shared s).wait h).futures s).ready = true := by
  by_cases hr : (h.futures s).ready = true
  · simp [task_future.wait, hr]
  · simp [task_future.wait, hr, Heap.set_future]

/-- C3: for distinct keys `K` and `K2` and a storage in which `K` holds a future, after
`rename_asset(K, K2)` `find_asset_entry(K)` returns the empty future and `find_asset_entry(K2)`
returns the future that was stored under `K`; that future is ready and yields the same handle,
hence the same Link, as before; the Link's id is `K2`, so every handle aliasing the Link observes
the id `K2`; the Link's asset is unchanged; the rename delegate was invoked once. -/
theorem rename_asset_moves_entry (T : Nat) (K K2 : String) (m : asset_manager) (env : Env)
    (storage : asset_storage) (s : Nat)
    (hs : m.get_storage T = some storage)
    (hne : K ≠ K2)
    (hK : container_find storage.container K = some (task_future.shared s)) :
    ∃ (m1 : asset_manager) (env1 : Env),
      asset_manager.rename_asset T K K2 m env = some (m1, env1)
      ∧ asset_manager.find_asset_entry T K m1 = some task_future.empty
      ∧ asset_manager.find_asset_entry T K2 m1 = some (task_future.shared s)
      ∧ (task_future.shared s).get env1.heap
          = some ((env.heap.futures s).result, env1.heap)
      ∧ (env1.heap.links (env.heap.futures s).result.link).id = K2
      ∧ (∀ h : asset_handle, h.link = (env.heap.futures s).result.link →
          (env1.heap.links h.link).id = K2)
      ∧ (env1.heap.links (env.heap.futures s).result.link).asset
          = (env.heap.links (env.heap.futures s).result.link).asset
      ∧ env1.log = env.log ++ [event.rename_asset_file T K K2] := by
  have hne2 : ¬ K2 = K := fun e => hne e.symm
  have hst := asset_manager.get_storage_put_storage m T storage
    { storage with container :=
      (container_erase (container_assign storage.container K2 (task_future.shared s)) K) } hs
  refine ⟨m.put_storage T { storage with container :=
      (container_erase (container_assign storage.container K2 (task_future.shared s)) K) },
    ⟨((task_future.shared s).wait env.heap).set_link (env.heap.futures s).result.link
        { ((task_future.shared s).wait env.heap).links (env.heap.futures s).result.link with
          id := K2 },
      env.log ++ [event.rename_asset_file T K K2]⟩, ?_, ?_, ?_, ?_, ?_, ?_, ?_, rfl⟩
  · simp [asset_manager.rename_asset, hs, hK, task_future.get]
  · simp [asset_manager.find_asset_entry, hst, asset_manager.find_asset_impl,
      container_find_erase]
  · simp [asset_manager.find_asset_entry, hst, asset_manager.find_asset_impl,
      container_find_erase, container_find_assign, hne2]
  · have hrdy := wait_ready s env.heap
    have hres := wait_result (task_future.shared s) env.heap s
    simp [task_future.get, task_future.wait, Heap.set_link] at hrdy hres ⊢
    by_cases hr : (env.heap.futures s).ready = true
    · simp [hr]
    · simp [hr, Heap.set_future]
  · simp [Heap.set_link]
  · intro h hh
    simp [Heap.set_link, hh]
  · simp [Heap.set_link, wait_links]

/-- Witness for C3: renaming `a` to `b` in a storage where `a` holds a pending future. -/
theorem rename_asset_moves_entry_witness :
    ∃ (m1 : asset_manager) (env1 : Env),
      asset_manager.rename_asset 7 "a" "b" (sample_manager [("a", task_future.shared 0)])
          (sample_env false) = some (m1, env1)
      ∧ asset_manager.find_asset_entry 7 "a" m1 = some task_future.empty
      ∧ asset_manager.find_asset_entry 7 "b" m1 = some (task_future.shared 0)
      ∧ (task_future.shared 0).get env1.heap
          = some (((sample_env false).heap.futures 0).result, env1.heap)
      ∧ (env1.heap.links ((sample_env false).heap.futures 0).result.link).id = "b"
      ∧ (∀ h : asset_handle, h.link = ((sample_env false).heap.futures 0).result.link →
          (env1.heap.links h.link).id = "b")
      ∧ (env1.heap.links ((sample_env false).heap.futures 0).result.link).asset
          = ((sample_env false).heap.links ((sample_env false).heap.futures 0).result.link).asset
      ∧ env1.log = (sample_env false).log ++ [event.rename_asset_file 7 "a" "b"] :=
  rename_asset_moves_entry 7 "a" "b" (sample_manager [("a", task_future.shared 0)])
    (sample_env false) (sample_storage [("a", task_future.shared 0)]) 0 rfl (by decide)
    (by decide)

/-- C4, counterexample: load `a`, `clear()`, load `a` again, then `delete_asset` `a`. The handle
of the first load refers to link 0, that of the second to link 1; after the delete the second
handle observes no asset, but the first still observes its asset (object 0), although
`find_asset_entry` returns the empty future for `a`. -/
theorem delete_asset_stale_handle_keeps_asset :
    stale_handle_scenario = some (⟨0⟩, ⟨1⟩, some 0, none, task_future.empty) := by
  decide

/-- C4, amended: for a storage in which `K` holds a future, after `delete_asset(K)` the Link of
the handle held by that future has an empty id and no asset, so every handle that aliases this
Link observes an empty asset; every other Link is left as it was; `find_asset_entry(K)` returns
the empty future; every other key maps to what it mapped to before; the delete delegate was
invoked once. -/
theorem delete_asset_invalidates_stored_link (T : Nat) (K : String) (m : asset_manager)
    (env : Env) (storage : asset_storage) (s : Nat)
    (hs : m.get_storage T = some storage)
    (hK : container_find storage.container K = some (task_future.shared s)) :
    ∃ (m1 : asset_manager) (env1 : Env) (storage1 : asset_storage),
      asset_manager.delete_asset T K m env = some (m1, env1)
      ∧ env1.heap.links (env.heap.futures s).result.link = ⟨"", none⟩
      ∧ (∀ h : asset_handle, h.link = (env.heap.futures s).result.link →
          (env1.heap.links h.link).asset = none)
      ∧ (∀ l : Nat, l ≠ (env.heap.futures s).result.link →
          env1.heap.links l = env.heap.links l)
      ∧ asset_manager.find_asset_entry T K m1 = some task_future.empty
      ∧ m1.get_storage T = some storage1
      ∧ (∀ k : String, k ≠ K →
          container_find storage1.container k = container_find storage.container k)
      ∧ env1.log = env.log ++ [event.delete_asset_file T K] := by
  have hst := asset_manager.get_storage_put_storage m T storage
    { storage with container := (container_erase storage.container K) } hs
  have hl := wait_links (task_future.shared s) env.heap
  refine ⟨m.put_storage T { storage with container := (container_erase storage.container K) },
    ⟨(((task_future.shared s).wait env.heap).set_link (env.heap.futures s).result.link
        { ((task_future.shared s).wait env.heap).links (env.heap.futures s).result.link with
          asset := none }).set_link (env.heap.futures s).result.link
        { (((task_future.shared s).wait env.heap).set_link (env.heap.futures s).result.link
            { ((task_future.shared s).wait env.heap).links (env.heap.futures s).result.link with
              asset := none }).links (env.heap.futures s).result.link with id := "" },
      env.log ++ [event.delete_asset_file T K]⟩,
    { storage with container := (container_erase storage.container K) },
    ?_, ?_, ?_, ?_, ?_, hst, ?_, rfl⟩
  · simp [asset_manager.delete_asset, asset_manager.clear_asset, hs, hK, task_future.get]
  · simp [Heap.set_link]
  · intro h hh
    simp [Heap.set_link, hh]
  · intro l hl2
    simp [Heap.set_link, hl2, hl]
  · simp [asset_manager.find_asset_entry, hst, asset_manager.find_asset_impl,
      container_find_erase]
  · intro k hk
    simp [container_find_erase, hk]

/-- Witness for C4, amended: deleting `a` in a storage where `a` holds a pending future. -/
theorem delete_asset_invalidates_stored_link_witness :
    ∃ (m1 : asset_manager) (env1 : Env) (storage1 : asset_storage),
      asset_manager.delete_asset 7 "a" (sample_manager [("a", task_future.shared 0)])
          (sample_env false) = some (m1, env1)
      ∧ env1.heap.links ((sample_env false).heap.futures 0).result.link = ⟨"", none⟩
      ∧ (∀ h : asset_handle, h.link = ((sample_env false).heap.futures 0).result.link →
          (env1.heap.links h.link).asset = none)
      ∧ (∀ l : Nat, l ≠ ((sample_env false).heap.futures 0).result.link →
          env1.heap.links l = (sample_env false).heap.links l)
      ∧ asset_manager.find_asset_entry 7 "a" m1 = some task_future.empty
      ∧ m1.get_storage 7 = some storage1
      ∧ (∀ k : String, k ≠ "a" →
          container_find storage1.container k
            = container_find (sample_storage [("a", task_future.shared 0)]).container k)
      ∧ env1.log = (sample_env false).log ++ [event.delete_asset_file 7 "a"] :=
  delete_asset_invalidates_stored_link 7 "a" (sample_manager [("a", task_future.shared 0)])
    (sample_env false) (sample_storage [("a", task_future.shared 0)]) 0 rfl (by decide)

/-- C5, evaluation: a synchronous `load` of a key that has no entry returns the delegate's future
without waiting on it: with a delegate that hands the work to the pool the returned future is
still pending when the call returns. The same call on a key that holds a pending future does
wait: the returned future is ready. -/
theorem load_sync_miss_returns_pending :
    sync_miss_scenario = some (task_future.shared 0, false)
    ∧ sync_hit_scenario = some (task_future.shared 0, true) := by
  decide

/-- C10, evaluation: `rename_asset` of `a` to `a` in a storage where `a` holds a future sets the
Link's id to `a` and leaves no entry under `a`: `find_asset_entry` returns the empty future,
where before the call it returned the stored future. -/
theorem rename_asset_same_key_drops_entry :
    rename_same_key_scenario = some (task_future.empty, "a")
    ∧ asset_manager.find_asset_entry 7 "a" (sample_manager [("a", task_future.shared 0)])
        = some (task_future.shared 0) := by
  decide

/-! ## Operations that never remove an entry -/

/-- An assignment `container[key] = v` keeps every key that had an entry. -/
theorem container_assign_keeps_entries (c : request_container_t) (key : String)
    (v : task_future) (k : String) (h : container_find c k ≠ none) :
    container_find (container_assign c key v) k ≠ none := by
  rw [container_find_assign]
  by_cases hk : k = key
  · simp [hk]
  · simpa [hk] using h

/-- The method `load_asset_from_file_impl` always returns, and the container it leaves is the one
it was given or that one after an assignment to `key`. -/
theorem load_asset_from_file_impl_container (T : Nat) (key : String) (mode : load_mode)
    (flags : load_flags) (container : request_container_t)
    (load_func : String → load_mode → asset_handle → Heap → task_future × Heap) (env : Env) :
    ∃ (f : task_future) (c1 : request_container_t) (env1 : Env),
      asset_manager.load_asset_from_file_impl T key mode flags container load_func env
        = some (f, c1, env1)
      ∧ (c1 = container ∨ ∃ v : task_future, c1 = container_assign container key v) := by
  unfold asset_manager.load_asset_from_file_impl
  cases hfind : container_find container key with
  | none => exact ⟨_, _, _, rfl, Or.inr ⟨_, rfl⟩⟩
  | some future =>
    by_cases hcond : flags = load_flags.reload ∧ future.is_ready env.heap = true
    · cases future with
      | empty => simp [task_future.is_ready] at hcond
      | shared s =>
        simp only [hcond, and_self, if_true, task_future.get]
        exact ⟨_, _, _, rfl, Or.inr ⟨_, rfl⟩⟩
    · simp only [hcond, if_false]
      exact ⟨_, _, _, rfl, Or.inl rfl⟩

/-- A container that is the former one, or the former one after an assignment to `key`, keeps
every key that had an entry and maps every key other than `key` to its former future. -/
theorem container_step_keeps_entries (c c1 : request_container_t) (key : String)
    (h : c1 = c ∨ ∃ v : task_future, c1 = container_assign c key v) :
    (∀ k : String, container_find c k ≠ none → container_find c1 k ≠ none)
    ∧ (∀ k : String, k ≠ key → container_find c1 k = container_find c k) := by
  rcases h with h | ⟨v, h⟩
  · subst h
    exact ⟨fun _ hk => hk, fun _ _ => rfl⟩
  · subst h
    exact ⟨fun k hk => container_assign_keeps_entries c key v k hk,
      fun k hk => container_find_assign_other c key v k hk⟩

/-- The container left by `create_asset_from_memory_impl` is the one it was given or that one
after an assignment to `key`. -/
theorem create_asset_from_memory_impl_container (T : Nat) (key : String) (data size : Nat)
    (mode : load_mode) (flags : load_flags) (container : request_container_t)
    (load_func : String → Nat → Nat → Heap → task_future × Heap) (env : Env) :
    (asset_manager.create_asset_from_memory_impl T key data size mode flags container
        load_func env).2.1 = container
    ∨ ∃ v : task_future,
        (asset_manager.create_asset_from_memory_impl T key data size mode flags container
          load_func env).2.1 = container_assign container key v := by
  unfold asset_manager.create_asset_from_memory_impl
  cases hfind : container_find container key with
  | none => exact Or.inr ⟨_, rfl⟩
  | some future => exact Or.inl rfl

/-- C11: for a registered type `T`, each of `load`, `create_asset_from_memory` and
`load_asset_from_instance` returns, whatever its arguments, and leaves a storage for `T` in which
every key that had an entry before the call still has one (every key other than the call's key
even maps to the same future) while the storages of the other types are untouched;
`find_asset_entry` returns the result of the lookup and has no manager to return, and `save`
returns the manager it was given, so both leave every mapping as it was. -/
theorem entries_survive_loads_find_and_save (T : Nat) (m : asset_manager) (env : Env)
    (storage : asset_storage) (hs : m.get_storage T = some storage) :
    (∀ (key : String) (mode : load_mode) (flags : load_flags),
      ∃ (f : task_future) (m1 : asset_manager) (env1 : Env) (storage1 : asset_storage),
        asset_manager.load T key mode flags m env = some (f, m1, env1)
        ∧ m1.get_storage T = some storage1
        ∧ (∀ k : String, container_find storage.container k ≠ none →
            container_find storage1.container k ≠ none)
        ∧ (∀ k : String, k ≠ key →
            container_find storage1.container k = container_find storage.container k)
        ∧ (∀ T2 : Nat, T2 ≠ T → m1.get_storage T2 = m.get_storage T2))
    ∧ (∀ (key : String) (data size : Nat) (mode : load_mode) (flags : load_flags),
      ∃ (f : task_future) (m1 : asset_manager) (env1 : Env) (storage1 : asset_storage),
        asset_manager.create_asset_from_memory T key data size mode flags m env
          = some (f, m1, env1)
        ∧ m1.get_storage T = some storage1
        ∧ (∀ k : String, container_find storage.container k ≠ none →
            container_find storage1.container k ≠ none)
        ∧ (∀ k : String, k ≠ key →
            container_find storage1.container k = container_find storage.container k)
        ∧ (∀ T2 : Nat, T2 ≠ T → m1.get_storage T2 = m.get_storage T2))
    ∧ (∀ (key : String) (entry : Option Nat),
      ∃ (f : task_future) (m1 : asset_manager) (env1 : Env) (storage1 : asset_storage),
        asset_manager.load_asset_from_instance T key entry m env = some (f, m1, env1)
        ∧ m1.get_storage T = some storage1
        ∧ (∀ k : String, container_find storage.container k ≠ none →
            container_find storage1.container k ≠ none)
        ∧ (∀ k : String, k ≠ key →
            container_find storage1.container k = container_find storage.container k)
        ∧ (∀ T2 : Nat, T2 ≠ T → m1.get_storage T2 = m.get_storage T2))
    ∧ (∀ key : String,
        asset_manager.find_asset_entry T key m
          = some (asset_manager.find_asset_impl key storage.container))
    ∧ (∀ asset : asset_handle,
        asset_manager.save T asset m env
          = some (m, ⟨env.heap,
              env.log ++ [event.save_to_file T (env.heap.links asset.link).id asset]⟩)) := by
  refine ⟨?_, ?_, ?_, ?_, ?_⟩
  · intro key mode flags
    by_cases hemb : string_find key "embedded" ≠ none
    · exact ⟨asset_manager.find_asset_impl key storage.container, m, env, storage,
        by simp [asset_manager.load, hs, hemb], hs,
        fun _ hk => hk, fun _ _ => rfl, fun _ _ => rfl⟩
    · obtain ⟨f, c1, env1, himpl, hc⟩ := load_asset_from_file_impl_container T key mode flags
        storage.container storage.load_from_file env
      obtain ⟨hkeep, hother⟩ := container_step_keeps_entries storage.container c1 key hc
      exact ⟨f, m.put_storage T { storage with container := c1 }, env1,
        { storage with container := c1 },
        by simp [asset_manager.load, hs, hemb, himpl],
        asset_manager.get_storage_put_storage m T storage _ hs, hkeep, hother,
        fun T2 hT2 => storages_find_put_other m._storages T _ T2 hT2⟩
  · intro key data size mode flags
    obtain ⟨hkeep, hother⟩ := container_step_keeps_entries storage.container _ key
      (create_asset_from_memory_impl_container T key data size mode flags storage.container
        storage.load_from_memory env)
    exact ⟨(asset_manager.create_asset_from_memory_impl T key data size mode flags
        storage.container storage.load_from_memory env).1,
      m.put_storage T { storage with container :=
        (asset_manager.create_asset_from_memory_impl T key data size mode flags
          storage.container storage.load_from_memory env).2.1 },
      (asset_manager.create_asset_from_memory_impl T key data size mode flags
        storage.container storage.load_from_memory env).2.2,
      { storage with container :=
        (asset_manager.create_asset_from_memory_impl T key data size mode flags
          storage.container storage.load_from_memory env).2.1 },
      by simp [asset_manager.create_asset_from_memory, hs],
      asset_manager.get_storage_put_storage m T storage _ hs, hkeep, hother,
      fun T2 hT2 => storages_find_put_other m._storages T _ T2 hT2⟩
  · intro key entry
    obtain ⟨hkeep, hother⟩ := container_step_keeps_entries storage.container
      (container_assign storage.container key (storage.load_from_instance key entry env.heap).1)
      key (Or.inr ⟨_, rfl⟩)
    exact ⟨(storage.load_from_instance key entry env.heap).1,
      m.put_storage T { storage with container := (container_assign storage.container key
        (storage.load_from_instance key entry env.heap).1) },
      ⟨(storage.load_from_instance key entry env.heap).2,
        env.log ++ [event.load_from_instance T key entry]⟩,
      { storage with container := (container_assign storage.container key
        (storage.load_from_instance key entry env.heap).1) },
      by simp [asset_manager.load_asset_from_instance, hs,
        asset_manager.load_asset_from_instance_impl],
      asset_manager.get_storage_put_storage m T storage _ hs, hkeep, hother,
      fun T2 hT2 => storages_find_put_other m._storages T _ T2 hT2⟩
  · intro key
    simp [asset_manager.find_asset_entry, hs]
  · intro asset
    simp [asset_manager.save, hs]

/-- Witness for C11: on a storage in which `a` holds a pending future, a reload of `b`, a
`create_asset_from_memory` of `b`, a `load_asset_from_instance` of `a`, a `find_asset_entry` of
`a` and a `save` of the handle to link 0. -/
theorem entries_survive_loads_find_and_save_witness :
    (∃ (f : task_future) (m1 : asset_manager) (env1 : Env) (storage1 : asset_storage),
        asset_manager.load 7 "b" load_mode.sync load_flags.reload
            (sample_manager [("a", task_future.shared 0)]) (sample_env false)
          = some (f, m1, env1)
        ∧ m1.get_storage 7 = some storage1
        ∧ (∀ k : String,
            container_find (sample_storage [("a", task_future.shared 0)]).container k ≠ none →
            container_find storage1.container k ≠ none)
        ∧ (∀ k : String, k ≠ "b" →
            container_find storage1.container k
              = container_find (sample_storage [("a", task_future.shared 0)]).container k)
        ∧ (∀ T2 : Nat, T2 ≠ 7 →
            m1.get_storage T2
              = (sample_manager [("a", task_future.shared 0)]).get_storage T2))
    ∧ (∃ (f : task_future) (m1 : asset_manager) (env1 : Env) (storage1 : asset_storage),
        asset_manager.create_asset_from_memory 7 "b" 3 4 load_mode.sync load_flags.standard
            (sample_manager [("a", task_future.shared 0)]) (sample_env false)
          = some (f, m1, env1)
        ∧ m1.get_storage 7 = some storage1
        ∧ (∀ k : String,
            container_find (sample_storage [("a", task_future.shared 0)]).container k ≠ none →
            container_find storage1.container k ≠ none)
        ∧ (∀ k : String, k ≠ "b" →
            container_find storage1.container k
              = container_find (sample_storage [("a", task_future.shared 0)]).container k)
        ∧ (∀ T2 : Nat, T2 ≠ 7 →
            m1.get_storage T2
              = (sample_manager [("a", task_future.shared 0)]).get_storage T2))
    ∧ (∃ (f : task_future) (m1 : asset_manager) (env1 : Env) (storage1 : asset_storage),
        asset_manager.load_asset_from_instance 7 "a" (some 9)
            (sample_manager [("a", task_future.shared 0)]) (sample_env false)
          = some (f, m1, env1)
        ∧ m1.get_storage 7 = some storage1
        ∧ (∀ k : String,
            container_find (sample_storage [("a", task_future.shared 0)]).container k ≠ none →
            container_find storage1.container k ≠ none)
        ∧ (∀ k : String, k ≠ "a" →
            container_find storage1.container k
              = container_find (sample_storage [("a", task_future.shared 0)]).container k)
        ∧ (∀ T2 : Nat, T2 ≠ 7 →
            m1.get_storage T2
              = (sample_manager [("a", task_future.shared 0)]).get_storage T2))
    ∧ asset_manager.find_asset_entry 7 "a" (sample_manager [("a", task_future.shared 0)])
        = some (asset_manager.find_asset_impl "a"
            (sample_storage [("a", task_future.shared 0)]).container)
    ∧ asset_manager.save 7 ⟨0⟩ (sample_manager [("a", task_future.shared 0)]) (sample_env false)
        = some (sample_manager [("a", task_future.shared 0)],
            ⟨(sample_env false).heap,
              (sample_env false).log
                ++ [event.save_to_file 7 ((sample_env false).heap.links 0).id ⟨0⟩]⟩) :=
  ⟨(entries_survive_loads_find_and_save 7 (sample_manager [("a", task_future.shared 0)])
      (sample_env false) (sample_storage [("a", task_future.shared 0)]) rfl).1
      "b" load_mode.sync load_flags.reload,
   (entries_survive_loads_find_and_save 7 (sample_manager [("a", task_future.shared 0)])
      (sample_env false) (sample_storage [("a", task_future.shared 0)]) rfl).2.1
      "b" 3 4 load_mode.sync load_flags.standard,
   (entries_survive_loads_find_and_save 7 (sample_manager [("a", task_future.shared 0)])
      (sample_env false) (sample_storage [("a", task_future.shared 0)]) rfl).2.2.1
      "a" (some 9),
   (entries_survive_loads_find_and_save 7 (sample_manager [("a", task_future.shared 0)])
      (sample_env false) (sample_storage [("a", task_future.shared 0)]) rfl).2.2.2.1 "a",
   (entries_survive_loads_find_and_save 7 (sample_manager [("a", task_future.shared 0)])
      (sample_env false) (sample_storage [("a", task_future.shared 0)]) rfl).2.2.2.2 ⟨0⟩⟩

/-! ## Overlapping first loads -/

/-- C9, counterexample: two loads of `a` on a storage without entries. When B runs between the
insertion and the dispatch of A, the delegate is invoked once, A receives the delegate's future
and B the default-constructed one. When both lookups run before either insertion, the delegate
is invoked twice, A and B receive different futures and the future of B replaces that of A. -/
theorem load_overlapping_calls_diverge :
    overlapped_load_scenario
      = some (task_future.shared 0, task_future.empty, 1, task_future.shared 0)
    ∧ double_lookup_load_scenario
      = some (task_future.shared 0, task_future.shared 1, 2, task_future.shared 1) := by
  decide

theorem container_assign_assign (c : request_container_t) (key : String)
    (v w : task_future) :
    container_assign (container_assign c key v) key w = container_assign c key w := by
  induction c with
  | nil => simp [container_assign]
  | cons p rest ih =>
    obtain ⟨k0, u⟩ := p
    by_cases h0 : k0 = key
    · simp [container_assign, h0]
    · simp [container_assign, h0, ih]

theorem storages_put_put (l : List (Nat × asset_storage)) (T : Nat) (a b : asset_storage) :
    storages_put (storages_put l T a) T b = storages_put l T b := by
  induction l with
  | nil => rfl
  | cons p rest ih =>
    obtain ⟨t, s0⟩ := p
    by_cases ht : t = T
    · simp [storages_put, ht]
    · simp [storages_put, ht, ih]

namespace asset_manager

theorem put_storage_put_storage (m : asset_manager) (T : Nat) (a b : asset_storage) :
    (m.put_storage T a).put_storage T b = m.put_storage T b := by
  simp [put_storage, storages_put_put]

/-- The lookup of a `load` of a key without the embedded marker and without entry goes to the
branch for a first load. -/
theorem load_lookup_miss_of_absent (T : Nat) (K : String) (m : asset_manager)
    (storage : asset_storage)
    (hs : m.get_storage T = some storage)
    (hk : string_find K "embedded" = none)
    (hK : container_find storage.container K = none) :
    load_lookup_miss T K m = true := by
  simp [load_lookup_miss, hs, hk, hK]

/-- The insertion of a first load puts a default-constructed future under the key. -/
theorem load_insert_of_absent (T : Nat) (K : String) (m : asset_manager)
    (storage : asset_storage)
    (hs : m.get_storage T = some storage)
    (hK : container_find storage.container K = none) :
    load_insert T K m
      = some (m.put_storage T { storage with
          container := (container_assign storage.container K task_future.empty) }) := by
  simp [load_insert, hs, container_index, hK]

/-- The insertion of a load whose key has an entry by now leaves the manager as it is. -/
theorem load_insert_of_present (T : Nat) (K : String) (m : asset_manager)
    (storage : asset_storage) (future : task_future)
    (hs : m.get_storage T = some storage)
    (hK : container_find storage.container K = some future) :
    load_insert T K m = some m := by
  have hput : m.put_storage T storage = m := put_storage_same m T storage hs
  simp [load_insert, hs, container_index, hK, hput]

/-- The dispatch of a first load calls the delegate on a default-constructed handle and assigns
its result to the slot of the key. -/
theorem load_dispatch_of_registered (T : Nat) (K : String) (mode : load_mode)
    (m : asset_manager) (env : Env) (storage : asset_storage)
    (hs : m.get_storage T = some storage) :
    load_dispatch T K mode m env
      = some ((storage.load_from_file K mode (asset_handle.make env.heap).1
                (asset_handle.make env.heap).2).1,
          m.put_storage T { storage with container := (container_assign storage.container K
            (storage.load_from_file K mode (asset_handle.make env.heap).1
              (asset_handle.make env.heap).2).1) },
          ⟨(storage.load_from_file K mode (asset_handle.make env.heap).1
              (asset_handle.make env.heap).2).2,
            env.log ++ [event.load_from_file T K mode (asset_handle.make env.heap).1]⟩) := by
  simp [load_dispatch, hs]

end asset_manager

/-- C9, amended: for a key `K` without the embedded marker and without entry, `n ≥ 2` calls
`load<T>(K, mode, standard)` that run one after another invoke the `load_from_file` delegate
exactly once and all receive the future it returned, which is stored under `K`. The insertion
and the dispatch of a first load are separate statements that in sequence make up the call, and
nothing keeps another call out: a call that runs between them receives the default-constructed
future (the delegate is still invoked once), and a call whose lookup ran before the insertion
invokes the delegate a second time and replaces the stored future. -/
theorem load_single_flight_serial_calls (T : Nat) (K : String) (mode : load_mode)
    (m : asset_manager) (env : Env) (storage : asset_storage) (n : Nat)
    (hs : m.get_storage T = some storage)
    (hk : string_find K "embedded" = none)
    (hK : container_find storage.container K = none)
    (hn : 2 ≤ n) :
    (∃ (m1 : asset_manager) (env1 : Env),
      asset_manager.load_repeat T K mode load_flags.standard n m env
        = some (List.replicate n
            (storage.load_from_file K mode (asset_handle.make env.heap).1
              (asset_handle.make env.heap).2).1, m1, env1)
      ∧ env1.log = env.log ++ [event.load_from_file T K mode (asset_handle.make env.heap).1]
      ∧ asset_manager.find_asset_entry T K m1
          = some (storage.load_from_file K mode (asset_handle.make env.heap).1
              (asset_handle.make env.heap).2).1)
    ∧ (asset_manager.load_insert T K m).bind
          (fun m1 => asset_manager.load_dispatch T K mode m1 env)
        = asset_manager.load T K mode load_flags.standard m env
    ∧ (∃ (m3 : asset_manager) (env3 : Env),
      asset_manager.load_overlapped T K mode m env
        = some ((storage.load_from_file K mode (asset_handle.make env.heap).1
              (asset_handle.make env.heap).2).1, task_future.empty, m3, env3)
      ∧ env3.log = env.log ++ [event.load_from_file T K mode (asset_handle.make env.heap).1]
      ∧ asset_manager.find_asset_entry T K m3
          = some (storage.load_from_file K mode (asset_handle.make env.heap).1
              (asset_handle.make env.heap).2).1)
    ∧ (∃ (m4 : asset_manager) (env4 : Env),
      asset_manager.load_double_lookup T K mode m env
        = some ((storage.load_from_file K mode (asset_handle.make env.heap).1
              (asset_handle.make env.heap).2).1,
            (storage.load_from_file K mode
              (asset_handle.make (storage.load_from_file K mode (asset_handle.make env.heap).1
                (asset_handle.make env.heap).2).2).1
              (asset_handle.make (storage.load_from_file K mode (asset_handle.make env.heap).1
                (asset_handle.make env.heap).2).2).2).1, m4, env4)
      ∧ env4.log = env.log ++ [event.load_from_file T K mode (asset_handle.make env.heap).1,
          event.load_from_file T K mode
            (asset_handle.make (storage.load_from_file K mode (asset_handle.make env.heap).1
              (asset_handle.make env.heap).2).2).1]
      ∧ asset_manager.find_asset_entry T K m4
          = some (storage.load_from_file K mode
              (asset_handle.make (storage.load_from_file K mode (asset_handle.make env.heap).1
                (asset_handle.make env.heap).2).2).1
              (asset_handle.make (storage.load_from_file K mode (asset_handle.make env.heap).1
                (asset_handle.make env.heap).2).2).2).1) := by
  obtain ⟨heap, log⟩ := env
  have hmissed := asset_manager.load_lookup_miss_of_absent T K m storage hs hk hK
  have hins := asset_manager.load_insert_of_absent T K m storage hs hK
  have hs1 := asset_manager.get_storage_put_storage m T storage
    { storage with container := (container_assign storage.container K task_future.empty) } hs
  have hK1 := container_find_assign_self storage.container K task_future.empty
  have hmiss := asset_manager.load_miss T K mode load_flags.standard m ⟨heap, log⟩ storage
    hs hk hK
  have hD1 := asset_manager.load_dispatch_of_registered T K mode _ ⟨heap, log⟩ _ hs1
  refine ⟨?_, ?_, ?_, ?_⟩
  · obtain ⟨k, rfl⟩ : ∃ k, n = k + 1 := ⟨n - 1, by omega⟩
    have hs2 := asset_manager.get_storage_put_storage m T storage
      { storage with container := (container_assign storage.container K
        (storage.load_from_file K mode (asset_handle.make heap).1
          (asset_handle.make heap).2).1) } hs
    obtain ⟨env1, hrep, hlog⟩ := asset_manager.load_repeat_hit T K mode _ _ _ hs2 hk
      (container_find_assign_self storage.container K _) k
      ⟨(storage.load_from_file K mode (asset_handle.make heap).1 (asset_handle.make heap).2).2,
        log ++ [event.load_from_file T K mode (asset_handle.make heap).1]⟩
    refine ⟨m.put_storage T { storage with container := (container_assign storage.container K
        (storage.load_from_file K mode (asset_handle.make heap).1
          (asset_handle.make heap).2).1) }, env1, ?_, hlog, ?_⟩
    · simp [asset_manager.load_repeat, hmiss, hrep, List.replicate_succ]
    · simp [asset_manager.find_asset_entry, hs2, asset_manager.find_asset_impl,
        container_find_assign_self]
  · rw [hins, hmiss]
    simp [hD1, asset_manager.put_storage_put_storage, container_assign_assign]
  · have hB := asset_manager.load_hit_standard T K mode _ ⟨heap, log⟩ _ task_future.empty
      hs1 hk hK1
    have hs3 := asset_manager.get_storage_put_storage _ T _
      (asset_storage.mk storage.load_from_memory storage.load_from_file
        storage.load_from_instance
        (container_assign (container_assign storage.container K task_future.empty) K
          (storage.load_from_file K mode (asset_handle.make heap).1
            (asset_handle.make heap).2).1)) hs1
    refine ⟨(m.put_storage T (asset_storage.mk storage.load_from_memory storage.load_from_file
          storage.load_from_instance
          (container_assign storage.container K task_future.empty))).put_storage T
        (asset_storage.mk storage.load_from_memory storage.load_from_file
          storage.load_from_instance
          (container_assign (container_assign storage.container K task_future.empty) K
            (storage.load_from_file K mode (asset_handle.make heap).1
              (asset_handle.make heap).2).1)),
      ⟨(storage.load_from_file K mode (asset_handle.make heap).1
        (asset_handle.make heap).2).2,
      log ++ [event.load_from_file T K mode (asset_handle.make heap).1]⟩, ?_, rfl, ?_⟩
    · simp [asset_manager.load_overlapped, hmissed, hins, hB, task_future.wait, hD1]
    · simp [asset_manager.find_asset_entry, hs3, asset_manager.find_asset_impl,
        container_find_assign_self]
  · have hs3 := asset_manager.get_storage_put_storage _ T _
      (asset_storage.mk storage.load_from_memory storage.load_from_file
        storage.load_from_instance
        (container_assign (container_assign storage.container K task_future.empty) K
          (storage.load_from_file K mode (asset_handle.make heap).1
            (asset_handle.make heap).2).1)) hs1
    have hins2 := asset_manager.load_insert_of_present T K _ _ _ hs3
      (container_find_assign_self (container_assign storage.container K task_future.empty) K
        (storage.load_from_file K mode (asset_handle.make heap).1 (asset_handle.make heap).2).1)
    have hD2 := asset_manager.load_dispatch_of_registered T K mode _
      ⟨(storage.load_from_file K mode (asset_handle.make heap).1 (asset_handle.make heap).2).2,
        log ++ [event.load_from_file T K mode (asset_handle.make heap).1]⟩ _ hs3
    have hs4 := asset_manager.get_storage_put_storage _ T _
      (asset_storage.mk storage.load_from_memory storage.load_from_file
        storage.load_from_instance
        (container_assign
          (container_assign (container_assign storage.container K task_future.empty) K
            (storage.load_from_file K mode (asset_handle.make heap).1
              (asset_handle.make heap).2).1) K
          (storage.load_from_file K mode
            (asset_handle.make (storage.load_from_file K mode (asset_handle.make heap).1
              (asset_handle.make heap).2).2).1
            (asset_handle.make (storage.load_from_file K mode (asset_handle.make heap).1
              (asset_handle.make heap).2).2).2).1)) hs3
    refine ⟨((m.put_storage T (asset_storage.mk storage.load_from_memory storage.load_from_file
          storage.load_from_instance
          (container_assign storage.container K task_future.empty))).put_storage T
        (asset_storage.mk storage.load_from_memory storage.load_from_file
          storage.load_from_instance
          (container_assign (container_assign storage.container K task_future.empty) K
            (storage.load_from_file K mode (asset_handle.make heap).1
              (asset_handle.make heap).2).1))).put_storage T
        (asset_storage.mk storage.load_from_memory storage.load_from_file
          storage.load_from_instance
          (container_assign
            (container_assign (container_assign storage.container K task_future.empty) K
              (storage.load_from_file K mode (asset_handle.make heap).1
                (asset_handle.make heap).2).1) K
            (storage.load_from_file K mode
              (asset_handle.make (storage.load_from_file K mode (asset_handle.make heap).1
                (asset_handle.make heap).2).2).1
              (asset_handle.make (storage.load_from_file K mode (asset_handle.make heap).1
                (asset_handle.make heap).2).2).2).1)),
      ⟨(storage.load_from_file K mode
          (asset_handle.make (storage.load_from_file K mode (asset_handle.make heap).1
            (asset_handle.make heap).2).2).1
          (asset_handle.make (storage.load_from_file K mode (asset_handle.make heap).1
            (asset_handle.make heap).2).2).2).2,
        log ++ [event.load_from_file T K mode (asset_handle.make heap).1,
          event.load_from_file T K mode
            (asset_handle.make (storage.load_from_file K mode (asset_handle.make heap).1
              (asset_handle.make heap).2).2).1]⟩, ?_, rfl, ?_⟩
    · simp [asset_manager.load_double_lookup, hmissed, hins, hD1, hins2, hD2]
    · simp [asset_manager.find_asset_entry, hs4, asset_manager.find_asset_impl,
        container_find_assign_self]

/-- Witness for C9, amended: two loads of `a` on a storage without entries. -/
theorem load_single_flight_serial_calls_witness :
    (∃ (m1 : asset_manager) (env1 : Env),
      asset_manager.load_repeat 7 "a" load_mode.async load_flags.standard 2 (sample_manager []) empty_env
        = some (List.replicate 2
            ((sample_storage []).load_from_file "a" load_mode.async (asset_handle.make empty_env.heap).1
              (asset_handle.make empty_env.heap).2).1, m1, env1)
      ∧ env1.log = empty_env.log ++ [event.load_from_file 7 "a" load_mode.async (asset_handle.make empty_env.heap).1]
      ∧ asset_manager.find_asset_entry 7 "a" m1
          = some ((sample_storage []).load_from_file "a" load_mode.async (asset_handle.make empty_env.heap).1
              (asset_handle.make empty_env.heap).2).1)
    ∧ (asset_manager.load_insert 7 "a" (sample_manager [])).bind
          (fun m1 => asset_manager.load_dispatch 7 "a" load_mode.async m1 empty_env)
        = asset_manager.load 7 "a" load_mode.async load_flags.standard (sample_manager []) empty_env
    ∧ (∃ (m3 : asset_manager) (env3 : Env),
      asset_manager.load_overlapped 7 "a" load_mode.async (sample_manager []) empty_env
        = some (((sample_storage []).load_from_file "a" load_mode.async (asset_handle.make empty_env.heap).1
              (asset_handle.make empty_env.heap).2).1, task_future.empty, m3, env3)
      ∧ env3.log = empty_env.log ++ [event.load_from_file 7 "a" load_mode.async (asset_handle.make empty_env.heap).1]
      ∧ asset_manager.find_asset_entry 7 "a" m3
          = some ((sample_storage []).load_from_file "a" load_mode.async (asset_handle.make empty_env.heap).1
              (asset_handle.make empty_env.heap).2).1)
    ∧ (∃ (m4 : asset_manager) (env4 : Env),
      asset_manager.load_double_lookup 7 "a" load_mode.async (sample_manager []) empty_env
        = some (((sample_storage []).load_from_file "a" load_mode.async (asset_handle.make empty_env.heap).1
              (asset_handle.make empty_env.heap).2).1,
            ((sample_storage []).load_from_file "a" load_mode.async
              (asset_handle.make ((sample_storage []).load_from_file "a" load_mode.async (asset_handle.make empty_env.heap).1
                (asset_handle.make empty_env.heap).2).2).1
              (asset_handle.make ((sample_storage []).load_from_file "a" load_mode.async (asset_handle.make empty_env.heap).1
                (asset_handle.make empty_env.heap).2).2).2).1, m4, env4)
      ∧ env4.log = empty_env.log ++ [event.load_from_file 7 "a" load_mode.async (asset_handle.make empty_env.heap).1,
          event.load_from_file 7 "a" load_mode.async
            (asset_handle.make ((sample_storage []).load_from_file "a" load_mode.async (asset_handle.make empty_env.heap).1
              (asset_handle.make empty_env.heap).2).2).1]
      ∧ asset_manager.find_asset_entry 7 "a" m4
          = some ((sample_storage []).load_from_file "a" load_mode.async
              (asset_handle.make ((sample_storage []).load_from_file "a" load_mode.async (asset_handle.make empty_env.heap).1
                (asset_handle.make empty_env.heap).2).2).1
              (asset_handle.make ((sample_storage []).load_from_file "a" load_mode.async (asset_handle.make empty_env.heap).1
                (asset_handle.make empty_env.heap).2).2).2).1) :=
  load_single_flight_serial_calls 7 "a" load_mode.async (sample_manager []) empty_env
    (sample_storage []) 2 rfl (by decide) rfl (by decide)

end runtime
